import Mathlib

/-!
Verification development for `scripts/update_publications.py`.

The script normalizes publication records fetched from a bibliographic
service (MTMT) into an HTML fragment and splices that fragment between two
marker comments of `index.html`.  This file gives a shallow embedding of the
pure core of the script — the field extractors (`extract_doi`,
`extract_authors`, `clean_journal_title`, `extract_venue`, `get_pub_type`,
`get_publisher`), the renderer (`build_html`) and the document patcher
(`update_index`) — and proves or refutes the specified properties.

Modelling conventions:
  * Python strings are Lean `String`s; character-level work happens on
    `String.data : List Char`.
  * A record (a JSON object) is a structure whose optional fields are
    `Option`s; a field read with a `.get(k, "")` default is modelled as a
    plain `String` whose absence is the empty string.  Python truthiness of
    a sub-object (`if book:`) is modelled by `Option.isSome`, an empty dict
    behaving like an absent one for every access the script performs.
  * The regex character classes `\s` and `\d` and the string methods
    `upper` / `lower` / `title` are modelled over their ASCII behaviour.
  * Loops whose measure is not structural carry an explicit fuel argument
    that is always called with fuel bounding the iteration count (each
    iteration consumes at least one character).
-/

/-! ### Character and string helpers -/

/-- ASCII fragment of the whitespace class `\s` used by `re` and `str.strip`:
space, tab, newline, carriage return, vertical tab, form feed. -/
def isWs (c : Char) : Bool :=
  c = ' ' || c = '\t' || c = '\n' || c = '\x0d' || c = '\x0b' || c = '\x0c'

/-- ASCII decimal digit, the `\d` class. -/
def isDigitC (c : Char) : Bool :=
  '0' ≤ c && c ≤ '9'

/-- Predicate `isPref p l` holds when `p` is a prefix of `l`. -/
def isPref : List Char → List Char → Bool
  | [], _ => true
  | _ :: _, [] => false
  | p :: ps, c :: cs => p = c && isPref ps cs

/-- First occurrence of `pat` inside `l`: returns the part before the
occurrence and the part after it, or `none` when `pat` does not occur.
(Only used with non-empty patterns.) -/
def splitAtSubstr (pat : List Char) : List Char → Option (List Char × List Char)
  | [] => none
  | c :: cs =>
    if isPref pat (c :: cs) then some ([], (c :: cs).drop pat.length)
    else
      match splitAtSubstr pat cs with
      | some (b, a) => some (c :: b, a)
      | none => none

/-- Python substring test `pat in s` (for non-empty `pat`). -/
def containsSub (s pat : String) : Bool :=
  (splitAtSubstr pat.data s.data).isSome

/-- Python `str.strip()` on the character list. -/
def stripChars (l : List Char) : List Char :=
  ((l.dropWhile isWs).reverse.dropWhile isWs).reverse

/-- Python `str.strip()`. -/
def stripStr (s : String) : String :=
  ⟨stripChars s.data⟩

/-- Python `str.lower()` (ASCII). -/
def lowerStr (s : String) : String :=
  ⟨s.data.map Char.toLower⟩

/-- Python `str.title()` (ASCII): the first alphabetic character of every
alphabetic run is uppercased, the following ones lowercased; the boolean
argument records whether the previous character was alphabetic. -/
def pyTitleAux : Bool → List Char → List Char
  | _, [] => []
  | prevAlpha, c :: cs =>
    if c.isAlpha then
      (if prevAlpha then c.toLower else c.toUpper) :: pyTitleAux true cs
    else c :: pyTitleAux false cs

/-- Python `str.title()` (ASCII). -/
def pyTitle (l : List Char) : List Char :=
  pyTitleAux false l

/-- Model of `html.escape` on one character (with `quote=True`, the default used by
the script): `&`, `<`, `>`, `"` and the apostrophe become entities. -/
def escChar (c : Char) : List Char :=
  if c = '&' then "&amp;".data
  else if c = '<' then "&lt;".data
  else if c = '>' then "&gt;".data
  else if c = '"' then "&quot;".data
  else if c = '\x27' then "&#x27;".data
  else [c]

/-- Python `html.escape` with its default `quote=True`. -/
def html_escape (s : String) : String :=
  ⟨(s.data.map escChar).flatten⟩

/-! ### Data model

The shapes read by the script from one raw publication record. -/

/-- Shape of `identifier["source"]["type"]`, carrying the source-type label. -/
structure IdentSourceType where
  label : Option String
deriving DecidableEq

/-- Shape of `identifier["source"]`. -/
structure IdentSource where
  type : Option IdentSourceType
deriving DecidableEq

/-- One entry of `pub["identifiers"]`; `realUrl` read with default `""`. -/
structure Identifier where
  source : Option IdentSource
  realUrl : String
deriving DecidableEq

/-- One entry of `pub["authorships"]`.  `authorMtid` models
`a.get("author", {}).get("mtid")`. -/
structure Authorship where
  authorTyped : Bool
  listPosition : Option Nat
  givenName : String
  familyName : String
  authorMtid : Option Nat
deriving DecidableEq

/-- One entry of `book["publishedAt"]`; `label` read with default `""`. -/
structure PubPlace where
  label : String
deriving DecidableEq

/-- Shape of `pub["book"]`; fields read with default `""` / `[]`. -/
structure Book where
  title : String
  publishedAt : List PubPlace
deriving DecidableEq

/-- Shape of `pub["journal"]`; `title` and `label` are read with `get` without a
string default, so their absence is observable. -/
structure Journal where
  title : Option String
  label : Option String
deriving DecidableEq

/-- One raw publication record, restricted to the fields the script reads.
String fields read via `.get(k, "")` are plain `String`s ("" = absent);
`typeLabel` is `pub["type"]["label"]` and `subTypeNameEng` is
`pub["subType"]["nameEng"]`, both defaulted to `""`. -/
structure Pub where
  title : Option String
  identifiers : List Identifier
  authorships : List Authorship
  book : Option Book
  journal : Option Journal
  volume : String
  issue : String
  firstPage : String
  lastPage : String
  typeLabel : String
  subTypeNameEng : String
  conferencePublication : Bool
  publishedYear : Nat
  citingPubCount : Nat
deriving DecidableEq

/-- MTMT id of the subject author (`AUTHOR_MTID`). -/
def AUTHOR_MTID : Nat := 10081350

/-- A record with every field absent, used to build concrete inputs. -/
def emptyPub : Pub :=
  ⟨none, [], [], none, none, "", "", "", "", "", "", false, 0, 0⟩

/-! ### `extract_doi` (source lines 62–69) -/

/-- Model of `ident.get("source", {}).get("type", {}).get("label")`. -/
def identTypeLabel (i : Identifier) : Option String :=
  (i.source.bind IdentSource.type).bind IdentSourceType.label

/-- The `for ident in pub.get("identifiers", [])` loop of `extract_doi`:
return `realUrl` of the first DOI-typed identifier, else `""`. -/
def extract_doi_list : List Identifier → String
  | [] => ""
  | i :: rest =>
    if identTypeLabel i = some "DOI" then i.realUrl else extract_doi_list rest

/-- Model of `extract_doi`. -/
def extract_doi (pub : Pub) : String :=
  extract_doi_list pub.identifiers

/-! ### `clean_journal_title` (source lines 97–107)

The regex `\s+\d{4}-\d{3}[\dXx](\s+\d{4}-\d{3}[\dXx])*` is removed by
`re.sub`.  The pattern is deterministic (whitespace and digits are disjoint,
so greedy matching never backtracks): an occurrence is one-or-more
whitespace, an ISSN-shaped token, then greedily further whitespace+ISSN
groups.  `re.sub` scans left to right, removing each leftmost occurrence and
continuing after it. -/

/-- Match `\d{4}-\d{3}[\dXx]` at the head, returning the rest. -/
def matchISSN : List Char → Option (List Char)
  | d1 :: d2 :: d3 :: d4 :: h :: d5 :: d6 :: d7 :: k :: rest =>
    if isDigitC d1 && isDigitC d2 && isDigitC d3 && isDigitC d4 && h = '-'
        && isDigitC d5 && isDigitC d6 && isDigitC d7
        && (isDigitC k || k = 'X' || k = 'x') then
      some rest
    else none
  | _ => none

/-- Match `\s+` (one or more whitespace, greedily) at the head. -/
def skipWs1 : List Char → Option (List Char)
  | [] => none
  | c :: cs => if isWs c then some (cs.dropWhile isWs) else none

/-- One `\s+\d{4}-\d{3}[\dXx]` group. -/
def issnStep (l : List Char) : Option (List Char) :=
  match skipWs1 l with
  | none => none
  | some r => matchISSN r

/-- The greedy `(\s+\d{4}-\d{3}[\dXx])*` tail; each group consumes at least
ten characters, so fuel `l.length` is never exhausted. -/
def issnTail : Nat → List Char → List Char
  | 0, l => l
  | f + 1, l =>
    match issnStep l with
    | none => l
    | some r => issnTail f r

/-- Match the whole removal pattern at the head, returning the rest. -/
def issnMatch (l : List Char) : Option (List Char) :=
  match issnStep l with
  | none => none
  | some r => some (issnTail r.length r)

/-- Model of `re.sub(pattern, "", raw_title)`: left-to-right scan removing each
leftmost occurrence; fuel bounds the number of scan steps (each step
consumes at least one character). -/
def removeISSNAux : Nat → List Char → List Char
  | 0, l => l
  | _ + 1, [] => []
  | f + 1, c :: cs =>
    match issnMatch (c :: cs) with
    | some rest => removeISSNAux f rest
    | none => c :: removeISSNAux f cs

/-- Model of `re.sub` of the ISSN pattern with the empty replacement. -/
def removeISSN (l : List Char) : List Char :=
  removeISSNAux l.length l

/-- Model of `clean_journal_title`: strip ISSN-shaped tokens, trim, and title-case a
string that is entirely uppercase and longer than five characters. -/
def clean_journal_title (raw : String) : String :=
  let cleaned := stripChars (removeISSN raw.data)
  if cleaned = cleaned.map Char.toUpper ∧ 5 < cleaned.length then ⟨pyTitle cleaned⟩
  else ⟨cleaned⟩

/-! ### `extract_authors` (source lines 72–94) -/

/-- Value of `a.get("listPosition", 999)`, the sort key of the authorship sort. -/
def posKey (a : Authorship) : Nat :=
  a.listPosition.getD 999

/-- The authorships that are counted (`authorTyped`) sorted by
`listPosition` with default 999.  The Python `sorted` builtin is stable;
`List.insertionSort` with the non-strict key order is the same stable
sort. -/
def authorshipsSorted (pub : Pub) : List Authorship :=
  List.insertionSort (fun a b => posKey a ≤ posKey b)
    (pub.authorships.filter (fun a => a.authorTyped))

/-- Value of `given[0] + "." if given else ""`. -/
def authorInitial (given : String) : String :=
  match given.data with
  | [] => ""
  | c :: _ => ⟨[c, '.']⟩

/-- One entry of the author string: `f"{initial} {family}".strip()`, wrapped
in `<strong>` when the author mtid of the authorship equals `AUTHOR_MTID`. -/
def authorName (a : Authorship) : String :=
  let name := stripStr (authorInitial a.givenName ++ " " ++ a.familyName)
  if a.authorMtid = some AUTHOR_MTID then "<strong>" ++ name ++ "</strong>"
  else name

/-- Model of `extract_authors`: the formatted, `", "`-joined author string. -/
def extract_authors (pub : Pub) : String :=
  String.intercalate ", " ((authorshipsSorted pub).map authorName)

/-! ### `extract_venue` (source lines 110–141) -/

/-- Model of `extract_venue`: book-seeded venue, overridden through
`clean_journal_title` when a journal entry is present, then the fixed
volume / issue / pages suffixes. -/
def extract_venue (pub : Pub) : String :=
  let venue :=
    match pub.book with
    | some b => b.title
    | none => ""
  let venue :=
    match pub.journal with
    | some j => clean_journal_title (j.title.getD (j.label.getD venue))
    | none => venue
  let venue := if pub.volume ≠ "" then venue ++ ", vol. " ++ pub.volume else venue
  let venue := if pub.issue ≠ "" then venue ++ ", no. " ++ pub.issue else venue
  let venue :=
    if pub.firstPage ≠ "" ∧ pub.lastPage ≠ "" ∧ pub.firstPage ≠ pub.lastPage then
      venue ++ ", pp. " ++ pub.firstPage ++ "–" ++ pub.lastPage
    else if pub.firstPage ≠ "" ∧ pub.lastPage ≠ "" then
      venue ++ ", p. " ++ pub.firstPage
    else venue
  venue

/-! ### `get_pub_type` (source lines 144–163) -/

/-- Model of `get_pub_type`: `"journal"` or `"conference"` via the ordered label
checks of the source. -/
def get_pub_type (pub : Pub) : String :=
  let sub_label := lowerStr pub.subTypeNameEng
  let main_label := lowerStr pub.typeLabel
  if containsSub main_label "journal" || pub.journal.isSome then "journal"
  else if containsSub sub_label "conference" || pub.conferencePublication then "conference"
  else if containsSub main_label "book" then
    if containsSub sub_label "conference" then "conference" else "journal"
  else "conference"

/-! ### `get_publisher` (source lines 166–195) -/

/-- The `for ident in pub.get("identifiers", [])` loop of `get_publisher`:
per identifier, `"ieeexplore"` wins over `"springer"`, the first matching
identifier wins overall; `none` models falling through the loop. -/
def identScan : List Identifier → Option String
  | [] => none
  | i :: rest =>
    if containsSub i.realUrl "ieeexplore" then some "IEEE"
    else if containsSub i.realUrl "springer" then some "Springer"
    else identScan rest

/-- The early `return "IEEE"` of `get_publisher`: a book with a non-empty
`publishedAt` whose first city label contains `"Piscataway"`. -/
def bookPiscataway (pub : Pub) : Bool :=
  match pub.book with
  | some b =>
    match b.publishedAt with
    | place :: _ => containsSub place.label "Piscataway"
    | [] => false
  | none => false

/-- Model of `get_publisher`: Piscataway check, then the identifier-URL scan, then
the substring checks on the DOI URL. -/
def get_publisher (pub : Pub) : String :=
  if bookPiscataway pub then "IEEE"
  else
    match identScan pub.identifiers with
    | some r => r
    | none =>
      let doi := extract_doi pub
      if containsSub doi "10.1109" || containsSub doi "10.23919" then "IEEE"
      else if containsSub doi "10.1007" then "Springer"
      else if containsSub doi "10.36244" then ""
      else ""

/-! ### `build_html` (source lines 198–268) -/

/-- The base indentation `I` of the renderer: twelve spaces. -/
def indentI : String := "            "

/-- Line 218: `html.escape(pub.get("title", "Unknown Title"))`. -/
def titleTextOf (pub : Pub) : String :=
  html_escape (pub.title.getD "Unknown Title")

/-- Line 221: `html.escape(extract_venue(pub))`. -/
def venueTextOf (pub : Pub) : String :=
  html_escape (extract_venue pub)

/-- Lines 231–234: the escaped title, wrapped in a link when a DOI URL
exists. -/
def titleHtmlOf (pub : Pub) : String :=
  if extract_doi pub ≠ "" then
    "<a href=\"" ++ extract_doi pub ++ "\" target=\"_blank\" rel=\"noopener\">"
      ++ titleTextOf pub ++ "</a>"
  else titleTextOf pub

/-- Lines 227–228 and 248–256: the meta-line spans (badge, optional
publisher, optional citation count). -/
def metaParts (pub : Pub) : List String :=
  let badge_class := if get_pub_type pub = "journal" then "badge-journal" else "badge-conference"
  let badge_label := if get_pub_type pub = "journal" then "Journal" else "Conference"
  ["<span class=\"pub-badge " ++ badge_class ++ "\">" ++ badge_label ++ "</span>"]
    ++ (if get_publisher pub ≠ "" then ["<span>" ++ get_publisher pub ++ "</span>"] else [])
    ++ (if 0 < pub.citingPubCount then
          ["<span class=\"badge-citations\">Cited by " ++ toString pub.citingPubCount ++ "</span>"]
        else [])

/-- Lines 236–263: the `html_parts` lines appended for one publication. -/
def renderPub (pub : Pub) : List String :=
  [indentI ++ "    <div class=\"pub-item\">",
   indentI ++ "        <div class=\"pub-title\">",
   indentI ++ "            " ++ titleHtmlOf pub,
   indentI ++ "        </div>",
   indentI ++ "        <div class=\"pub-authors\">" ++ extract_authors pub ++ "</div>",
   indentI ++ "        <div class=\"pub-venue\">" ++ venueTextOf pub ++ "</div>",
   indentI ++ "        <div class=\"pub-meta\">"]
    ++ (metaParts pub).map (fun mp => indentI ++ "            " ++ mp)
    ++ [indentI ++ "        </div>", indentI ++ "    </div>", ""]

/-- The keys of `by_year` in descending order.  `defaultdict` keys appear in
insertion order and are distinct; `sorted(..., reverse=True)` orders them
descending, so the model deduplicates the non-zero years and sorts them with
`≥`. -/
def yearsOf (pubs : List Pub) : List Nat :=
  List.insertionSort (fun a b : Nat => b ≤ a)
    (((pubs.map Pub.publishedYear).filter (fun y => y ≠ 0)).dedup)

/-- Group `by_year[y]`: records with year `y`, in fetch order. -/
def pubsOfYear (pubs : List Pub) (y : Nat) : List Pub :=
  pubs.filter (fun p => p.publishedYear = y)

/-- Lines 213–215 and 265–266: the lines of one year group. -/
def yearBlock (pubs : List Pub) (y : Nat) : List String :=
  [indentI ++ "<div class=\"year-group\">",
   indentI ++ "    <div class=\"year-label\">" ++ toString y ++ "</div>",
   ""]
    ++ ((pubsOfYear pubs y).map renderPub).flatten
    ++ [indentI ++ "</div>", ""]

/-- All lines of `html_parts` produced by `build_html`. -/
def buildHtmlLines (pubs : List Pub) : List String :=
  ((yearsOf pubs).map (yearBlock pubs)).flatten

/-- Model of `build_html`: `"\n".join(html_parts)`. -/
def build_html (pubs : List Pub) : String :=
  String.intercalate "\n" (buildHtmlLines pubs)

/-! ### `update_index` (source lines 271–292) and `main` (295–313) -/

/-- Constant `MARKER_START`. -/
def MARKER_START : String := "<!-- PUBLICATIONS_START -->"

/-- Constant `MARKER_END`. -/
def MARKER_END : String := "<!-- PUBLICATIONS_END -->"

/-- The replacement text of `re.subn`:
`MARKER_START + "\n" + publications_html + "\n        " + MARKER_END`. -/
def replacementOf (publications_html : String) : String :=
  MARKER_START ++ "\n" ++ publications_html ++ "\n        " ++ MARKER_END

/-- Model of `re.subn(escape(START) + ".*?" + escape(END), repl, content, DOTALL)`:
find the first occurrence of the start marker, then (lazily) the first end
marker after it, replace the span, and continue after it; when a start
marker has no end marker after it no further match exists and the remaining
text is kept.  Fuel bounds the number of replacements (each consumes at
least one character), so `content.length + 1` fuel is never exhausted. -/
def subnFuel (repl : List Char) : Nat → List Char → List Char × Nat
  | 0, content => (content, 0)
  | f + 1, content =>
    match splitAtSubstr MARKER_START.data content with
    | none => (content, 0)
    | some (before, rest) =>
      match splitAtSubstr MARKER_END.data rest with
      | none => (content, 0)
      | some (_, after) =>
        let p := subnFuel repl f after
        (before ++ repl ++ p.1, p.2 + 1)

/-- Value of `new_content, count = re.subn(...)` on the document text. -/
def update_run (publications_html content : String) : List Char × Nat :=
  subnFuel (replacementOf publications_html).data (content.data.length + 1) content.data

/-- The `count` reported by `update_index`. -/
def update_count (publications_html content : String) : Nat :=
  (update_run publications_html content).2

/-- Model of `update_index`: `none` models the `count == 0` failure branch (no write
happens, the target file keeps its bytes); `some c` models writing the new
content `c`. -/
def update_index (publications_html content : String) : Option String :=
  if update_count publications_html content = 0 then none
  else some ⟨(update_run publications_html content).1⟩

/-- Does the document contain a marker pair (a start marker with an end
marker after it)? -/
def hasMarkerPair (content : String) : Bool :=
  match splitAtSubstr MARKER_START.data content.data with
  | none => false
  | some (_, rest) => (splitAtSubstr MARKER_END.data rest).isSome

/-- The tail of `main` after the fetch: resulting document text and process
exit code.  An empty fetch returns without touching the file (exit 0); a
failed `update_index` leaves the file unchanged and exits 1. -/
def mainRun (publications : List Pub) (content : String) : String × Nat :=
  if publications.isEmpty then (content, 0)
  else
    match update_index (build_html publications) content with
    | some nc => (nc, 0)
    | none => (content, 1)

/-! ### Specification-side definitions

Definitions written from the words of the claims, to be compared with the
embeddings above. -/

/-- From the words of the specification for the author string: identical to
`extract_authors` except that each composed name is HTML-escaped before the
emphasis wrapping, as "all text content must be HTML-escaped" requires. -/
def extract_authors_escaped (pub : Pub) : String :=
  String.intercalate ", " ((authorshipsSorted pub).map (fun a =>
    let name := html_escape (stripStr (authorInitial a.givenName ++ " " ++ a.familyName))
    if a.authorMtid = some AUTHOR_MTID then "<strong>" ++ name ++ "</strong>"
    else name))

/-- The first publisher rule of the claim: a book published at a city containing
`"Piscataway"` gives IEEE. -/
def specBookRule (pub : Pub) : Option String :=
  if bookPiscataway pub then some "IEEE" else none

/-- From the words of claim C7, reading its DOI conditions as *prefix*
checks on the extracted DOI URL: Piscataway city, then the identifier-URL
scan, then DOI prefix `10.1109`/`10.23919` giving IEEE, prefix `10.1007`
giving Springer, prefix `10.36244` giving the empty string, else empty. -/
def publisherSpecStated (pub : Pub) : String :=
  match specBookRule pub with
  | some r => r
  | none =>
    match identScan pub.identifiers with
    | some r => r
    | none =>
      let doi := extract_doi pub
      if isPref "10.1109".data doi.data || isPref "10.23919".data doi.data then "IEEE"
      else if isPref "10.1007".data doi.data then "Springer"
      else if isPref "10.36244".data doi.data then ""
      else ""

/-- The same ordered rule list with the DOI conditions amended to
*substring* checks on the DOI URL. -/
def publisherSpecContains (pub : Pub) : String :=
  match specBookRule pub with
  | some r => r
  | none =>
    match identScan pub.identifiers with
    | some r => r
    | none =>
      let doi := extract_doi pub
      if containsSub doi "10.1109" || containsSub doi "10.23919" then "IEEE"
      else if containsSub doi "10.1007" then "Springer"
      else if containsSub doi "10.36244" then ""
      else ""

/-! ### Concrete records used by counterexamples and witnesses -/

/-- A counted authorship whose family name contains a markup character. -/
def c1Pub : Pub :=
  { emptyPub with authorships := [⟨true, some 1, "Q", "x<y", none⟩] }

/-- A record whose journal entry has neither a title nor a label, on top of
an all-caps book title. -/
def c4Pub : Pub :=
  { emptyPub with book := some ⟨"PROCEEDINGS OF X", []⟩, journal := some ⟨none, none⟩ }

/-- A book record with a journal entry lacking title and label. -/
def w4Pub : Pub :=
  { emptyPub with book := some ⟨"SOME BOOK", []⟩, journal := some ⟨none, none⟩ }

/-- Two counted authorships: one at list position 1000, one without a list
position. -/
def c5Pub : Pub :=
  { emptyPub with authorships :=
      [⟨true, some 1000, "A", "Apos", none⟩, ⟨true, none, "B", "Bnone", none⟩] }

/-- Two counted authorships at positions 2 and 1. -/
def w5Pub : Pub :=
  { emptyPub with authorships :=
      [⟨true, some 2, "C", "Cc", none⟩, ⟨true, some 1, "D", "Dd", none⟩] }

/-- The non-idempotence input: removing the inner ISSN token splices the
surrounding digits into a new ISSN-shaped token. -/
def c6bad : String := "A 20 1234-567861-2079"

/-- A DOI-typed identifier whose URL has registrant prefix `10.5555` but
contains `"10.1109"` further on. -/
def c7Pub : Pub :=
  { emptyPub with identifiers := [⟨some ⟨some ⟨some "DOI"⟩⟩, "10.5555/10.1109demo"⟩] }

/-- A titleless record with a non-zero year. -/
def c9Pub : Pub :=
  { emptyPub with publishedYear := 2021 }

/-- Only the first page is non-empty. -/
def c10Pub : Pub :=
  { emptyPub with firstPage := "5" }

/-- Only the volume is non-empty. -/
def w10Pub : Pub :=
  { emptyPub with volume := "7" }

instance : IsTotal Authorship (fun a b => posKey a ≤ posKey b) :=
  ⟨fun a b => Nat.le_total (posKey a) (posKey b)⟩

instance : IsTrans Authorship (fun a b => posKey a ≤ posKey b) :=
  ⟨fun _ _ _ => Nat.le_trans⟩

/-- A document with two marker pairs. -/
def c2Doc : String :=
  "A" ++ MARKER_START ++ "x" ++ MARKER_END ++ "B"
    ++ MARKER_START ++ "y" ++ MARKER_END ++ "C"

/-- Substring test on character lists: does `pat` occur inside `l`? -/
def containsL (l pat : List Char) : Bool :=
  (splitAtSubstr pat l).isSome

/-- List-level variant of `hasMarkerPair`: does `l` contain a start marker
with an end marker after it? -/
def hasMarkerPairL (l : List Char) : Bool :=
  match splitAtSubstr MARKER_START.data l with
  | none => false
  | some (_, rest) => (splitAtSubstr MARKER_END.data rest).isSome

/-- A document made of `k` marker-delimited spans: for each `(a, m)` in the
list, the text `a` before a start marker and the span `m` between the
markers, followed by the trailing text `tail`. -/
def pairsDoc : List (List Char × List Char) → List Char → List Char
  | [], tail => tail
  | (a, m) :: rest, tail =>
    a ++ (MARKER_START.data ++ (m ++ (MARKER_END.data ++ pairsDoc rest tail)))

/-- The same document with every marker-delimited span replaced by
`repl`. -/
def pairsResult (repl : List Char) : List (List Char × List Char) → List Char → List Char
  | [], tail => tail
  | (a, _) :: rest, tail => a ++ (repl ++ pairsResult repl rest tail)

/-- Two marker-delimited spans whose surrounding text and span bodies are
HTML-like (full of angle brackets) but contain no marker. -/
def c2Pairs : List (List Char × List Char) :=
  [("<p>a".data, "<i>x</i>".data), ("b<hr>".data, "y".data)]

/-- HTML-like trailing text with no marker pair. -/
def c2Tail : List Char := "<z>".data

/-! ### Helper lemmas -/

theorem strData_append (s t : String) : (s ++ t).data = s.data ++ t.data := rfl

theorem strData_nil : ("" : String).data = [] := rfl

theorem markerStart_data : MARKER_START.data = '<' :: "!-- PUBLICATIONS_START -->".data := rfl

theorem markerEnd_data : MARKER_END.data = '<' :: "!-- PUBLICATIONS_END -->".data := rfl

theorem isPref_append_self (p t : List Char) : isPref p (p ++ t) = true := by
  induction p with
  | nil => rfl
  | cons c ps ih => simp [isPref, ih]

theorem isPref_append_left (p x y : List Char) (h : isPref p x = true) :
    isPref p (x ++ y) = true := by
  induction p generalizing x with
  | nil => rfl
  | cons c ps ih =>
    cases x with
    | nil => exact absurd h (by simp [isPref])
    | cons d x' =>
      simp only [isPref, Bool.and_eq_true, decide_eq_true_eq] at h
      simp only [List.cons_append, isPref, Bool.and_eq_true, decide_eq_true_eq]
      exact ⟨h.1, ih x' h.2⟩

theorem subnFuel_of_no_start (repl : List Char) (f : Nat) (l : List Char)
    (h : splitAtSubstr MARKER_START.data l = none) : subnFuel repl f l = (l, 0) := by
  cases f with
  | zero => rfl
  | succ f => simp [subnFuel, h]

theorem escChar_no_markup (d c : Char) (h : c ∈ escChar d) :
    c ≠ '<' ∧ c ≠ '>' ∧ c ≠ '"' := by
  unfold escChar at h
  repeat' split at h
  case isTrue => fin_cases h <;> exact ⟨by decide, by decide, by decide⟩
  case isTrue => fin_cases h <;> exact ⟨by decide, by decide, by decide⟩
  case isTrue => fin_cases h <;> exact ⟨by decide, by decide, by decide⟩
  case isTrue => fin_cases h <;> exact ⟨by decide, by decide, by decide⟩
  case isTrue => fin_cases h <;> exact ⟨by decide, by decide, by decide⟩
  case isFalse h1 h2 h3 h4 h5 =>
    simp only [List.mem_singleton] at h
    subst h
    exact ⟨h2, h3, h4⟩

theorem html_escape_no_markup (s : String) (c : Char) (h : c ∈ (html_escape s).data) :
    c ≠ '<' ∧ c ≠ '>' ∧ c ≠ '"' := by
  have h' : c ∈ (s.data.map escChar).flatten := h
  obtain ⟨piece, hp, hc⟩ := List.mem_flatten.mp h'
  obtain ⟨d, _, rfl⟩ := List.mem_map.mp hp
  exact escChar_no_markup d c hc

theorem extract_doi_list_eq_find (l : List Identifier) :
    extract_doi_list l =
      (Option.map Identifier.realUrl
        (l.find? (fun i => identTypeLabel i = some "DOI"))).getD "" := by
  induction l with
  | nil => rfl
  | cons i rest ih =>
    by_cases hd : identTypeLabel i = some "DOI"
    · simp [extract_doi_list, List.find?, hd]
    · simp [extract_doi_list, List.find?, hd, ih]

theorem strData_mk (l : List Char) : (String.mk l).data = l := rfl

theorem containsL_cons (c : Char) (l pat : List Char) (h : containsL (c :: l) pat = false) :
    isPref pat (c :: l) = false ∧ containsL l pat = false := by
  unfold containsL at h ⊢
  simp only [splitAtSubstr] at h
  by_cases hp : isPref pat (c :: l) = true
  · rw [if_pos hp] at h
    simp at h
  · refine ⟨by simpa using hp, ?_⟩
    rw [if_neg hp] at h
    cases hs : splitAtSubstr pat l with
    | none => simp
    | some pr =>
      obtain ⟨b, aft⟩ := pr
      rw [hs] at h
      simp at h

theorem isPref_of_append_le (p x y : List Char) (h : isPref p (x ++ y) = true)
    (hl : p.length ≤ x.length) : isPref p x = true := by
  induction p generalizing x with
  | nil => rfl
  | cons q p' ih =>
    cases x with
    | nil => simp at hl
    | cons d x' =>
      simp only [List.cons_append, isPref, Bool.and_eq_true, decide_eq_true_eq] at h
      simp only [List.length_cons] at hl
      simp only [isPref, Bool.and_eq_true, decide_eq_true_eq]
      exact ⟨h.1, ih x' h.2 (by omega)⟩

theorem mem_of_isPref_straddle (p x : List Char) (c : Char) (z : List Char)
    (h : isPref p (x ++ c :: z) = true) (hl : x.length < p.length) : c ∈ p := by
  induction x generalizing p with
  | nil =>
    cases p with
    | nil => simp at hl
    | cons q p' =>
      simp only [List.nil_append, isPref, Bool.and_eq_true, decide_eq_true_eq] at h
      obtain ⟨rfl, -⟩ := h
      exact List.mem_cons_self _ _
  | cons d x' ih =>
    cases p with
    | nil => simp at hl
    | cons q p' =>
      simp only [List.cons_append, isPref, Bool.and_eq_true, decide_eq_true_eq] at h
      simp only [List.length_cons] at hl
      exact List.mem_cons_of_mem q (ih p' h.2 (by omega))

theorem splitAtSubstr_first (ptail : List Char) (hpt : '<' ∉ ptail) :
    ∀ (a r : List Char), containsL a ('<' :: ptail) = false →
      splitAtSubstr ('<' :: ptail) (a ++ '<' :: (ptail ++ r)) = some (a, r) := by
  intro a
  induction a with
  | nil =>
    intro r _
    simp only [List.nil_append, splitAtSubstr]
    have hp : isPref ('<' :: ptail) ('<' :: (ptail ++ r)) = true := by
      rw [← List.cons_append]
      exact isPref_append_self ('<' :: ptail) r
    rw [hp]
    simp [List.drop_left ptail r]
  | cons c a' ih =>
    intro r h
    obtain ⟨hpf, h'⟩ := containsL_cons c a' ('<' :: ptail) h
    have hcond : isPref ('<' :: ptail) (c :: (a' ++ '<' :: (ptail ++ r))) = false := by
      cases hb : isPref ('<' :: ptail) (c :: (a' ++ '<' :: (ptail ++ r))) with
      | false => rfl
      | true =>
        exfalso
        simp only [isPref, Bool.and_eq_true, decide_eq_true_eq] at hb
        obtain ⟨hc, hpref⟩ := hb
        by_cases hlen : ptail.length ≤ a'.length
        · have hpa : isPref ptail a' = true := isPref_of_append_le ptail a' _ hpref hlen
          have htrue : isPref ('<' :: ptail) (c :: a') = true := by
            simp only [isPref, Bool.and_eq_true, decide_eq_true_eq]
            exact ⟨hc, hpa⟩
          rw [htrue] at hpf
          simp at hpf
        · exact hpt (mem_of_isPref_straddle ptail a' '<' (ptail ++ r) hpref (by omega))
    simp only [List.cons_append, splitAtSubstr]
    rw [if_neg (by simp [hcond])]
    simp only [List.append_eq, ih r h']

theorem subnFuel_no_pair (repl : List Char) (f : Nat) (l : List Char)
    (h : hasMarkerPairL l = false) : subnFuel repl f l = (l, 0) := by
  cases f with
  | zero => rfl
  | succ f =>
    unfold hasMarkerPairL at h
    cases h1 : splitAtSubstr MARKER_START.data l with
    | none => simp [subnFuel, h1]
    | some pr =>
      obtain ⟨b, rest⟩ := pr
      rw [h1] at h
      simp only at h
      cases h2 : splitAtSubstr MARKER_END.data rest with
      | none => simp [subnFuel, h1, h2]
      | some _ => rw [h2] at h; simp at h

theorem length_le_pairsDoc (ps : List (List Char × List Char)) (tail : List Char) :
    ps.length ≤ (pairsDoc ps tail).length := by
  induction ps with
  | nil => simp [pairsDoc]
  | cons pr ps' ih =>
    obtain ⟨a, m⟩ := pr
    have hS : 1 ≤ MARKER_START.data.length := by decide
    simp only [pairsDoc, List.length_cons, List.length_append]
    omega

theorem subnFuel_pairs (repl : List Char) (tail : List Char)
    (htail : hasMarkerPairL tail = false) :
    ∀ (ps : List (List Char × List Char)) (fuel : Nat),
      (∀ p ∈ ps, containsL p.1 MARKER_START.data = false) →
      (∀ p ∈ ps, containsL p.2 MARKER_END.data = false) →
      ps.length ≤ fuel →
      subnFuel repl fuel (pairsDoc ps tail) = (pairsResult repl ps tail, ps.length) := by
  intro ps
  induction ps with
  | nil =>
    intro fuel _ _ _
    simp only [pairsDoc, pairsResult, List.length_nil]
    exact subnFuel_no_pair repl fuel tail htail
  | cons pr ps' ih =>
    obtain ⟨a, m⟩ := pr
    intro fuel ha hm hfuel
    have hfl : ps'.length + 1 ≤ fuel := by simpa using hfuel
    obtain ⟨f, rfl⟩ : ∃ f, fuel = f + 1 := ⟨fuel - 1, by omega⟩
    have h1 : splitAtSubstr MARKER_START.data (pairsDoc ((a, m) :: ps') tail)
        = some (a, m ++ (MARKER_END.data ++ pairsDoc ps' tail)) := by
      simp only [pairsDoc]
      rw [markerStart_data, List.cons_append]
      exact splitAtSubstr_first _ (by decide) a _
        (by rw [← markerStart_data]; exact ha (a, m) (List.mem_cons_self _ _))
    have h2 : splitAtSubstr MARKER_END.data (m ++ (MARKER_END.data ++ pairsDoc ps' tail))
        = some (m, pairsDoc ps' tail) := by
      rw [markerEnd_data, List.cons_append]
      exact splitAtSubstr_first _ (by decide) m _
        (by rw [← markerEnd_data]; exact hm (a, m) (List.mem_cons_self _ _))
    have hrec := ih f (fun p hp => ha p (List.mem_cons_of_mem _ hp))
      (fun p hp => hm p (List.mem_cons_of_mem _ hp)) (by omega)
    simp only [subnFuel, h1, h2, hrec, pairsResult, List.length_cons, List.append_assoc]

/-! ### Claim C1 -/

/-- Claim C1, as stated, is false: author names are embedded into the
rendered fragment without HTML-escaping.  At the concrete record `c1Pub`
(family name `"x<y"`), `extract_authors` emits the raw `<` character, and
differs from the claim-side variant that escapes each name. -/
theorem c1_counterexample :
    extract_authors c1Pub = "Q. x<y" ∧
    extract_authors_escaped c1Pub = "Q. x&lt;y" ∧
    extract_authors c1Pub ≠ extract_authors_escaped c1Pub := by decide

/-- Claim C1 (amended): the escaped text contents — the title text and the
venue string — contain no raw `<`, `>` or `"` after escaping; author names
are embedded verbatim (see the counterexample), so the escaping guarantee
holds for titles and venues only. -/
theorem c1_title_venue_escaped (pub : Pub) (c : Char)
    (h : c ∈ (titleTextOf pub).data ∨ c ∈ (venueTextOf pub).data) :
    c ≠ '<' ∧ c ≠ '>' ∧ c ≠ '"' := by
  rcases h with h | h
  · unfold titleTextOf at h
    exact html_escape_no_markup _ c h
  · unfold venueTextOf at h
    exact html_escape_no_markup _ c h

/-- Witness for the amended theorem of C1 at `emptyPub` and the character `U`. -/
theorem c1_title_venue_escaped_witness : 'U' ≠ '<' ∧ 'U' ≠ '>' ∧ 'U' ≠ '"' :=
  c1_title_venue_escaped emptyPub 'U' (Or.inl (by decide))

/-! ### Claim C8 -/

/-- Claim C8: DOI extraction returns the resolvable URL of the first
identifier whose source-type label is `"DOI"`, and the empty string when no
such identifier exists (`List.find?` picks the first match; its absence
yields the `""` default). -/
theorem c8_doi_first_or_empty (pub : Pub) :
    extract_doi pub =
      (Option.map Identifier.realUrl
        (pub.identifiers.find? (fun i => identTypeLabel i = some "DOI"))).getD "" := by
  unfold extract_doi
  exact extract_doi_list_eq_find pub.identifiers

/-! ### Claims C4, C5, C6, C7, C10: counterexamples -/

/-- Claim C4, as stated, is false: for `c4Pub` (a journal entry with neither
title nor label on top of the all-caps book title `"PROCEEDINGS OF X"`), the
venue falls back to the book-seeded value and journal-title cleanup IS
applied to it, title-casing the book title. -/
theorem c4_counterexample :
    extract_venue c4Pub = "Proceedings Of X" ∧
    extract_venue c4Pub ≠ "PROCEEDINGS OF X" ∧
    extract_venue c4Pub = clean_journal_title "PROCEEDINGS OF X" := by decide

/-- Claim C5, as stated, is false: in `c5Pub` an authorship at list position
1000 sorts after the authorship with no list position (sentinel 999), so an
unpositioned authorship precedes a positioned one. -/
theorem c5_counterexample :
    ¬ (authorshipsSorted c5Pub).Pairwise
        (fun a b => a.listPosition = none → b.listPosition = none) := by decide

/-- Claim C6, as stated, is false: journal-title cleanup is not idempotent.
Removing the ISSN token of `"A 20 1234-567861-2079"` splices the
surrounding digits into the new ISSN-shaped token `2061-2079`, which only a
second pass removes. -/
theorem c6_counterexample :
    clean_journal_title c6bad = "A 2061-2079" ∧
    clean_journal_title (clean_journal_title c6bad) = "A" ∧
    clean_journal_title (clean_journal_title c6bad) ≠ clean_journal_title c6bad := by decide

/-- Claim C6 (amended): on the documented example the cleanup gives the
stated output and applying it twice agrees with applying it once. -/
theorem c6_example_fixed_point :
    clean_journal_title "ACTA POLYTECHNICA HUNGARICA 1785-8860" = "Acta Polytechnica Hungarica" ∧
    clean_journal_title (clean_journal_title "ACTA POLYTECHNICA HUNGARICA 1785-8860")
      = clean_journal_title "ACTA POLYTECHNICA HUNGARICA 1785-8860" := by decide

/-- Claim C7, as stated, is false: the DOI checks are substring tests, not
prefix tests.  For `c7Pub`, whose DOI URL is `"10.5555/10.1109demo"`, the
code returns `"IEEE"` although no stated DOI-prefix rule matches. -/
theorem c7_counterexample :
    get_publisher c7Pub = "IEEE" ∧ publisherSpecStated c7Pub = "" := by decide

/-- Claim C10, as stated, is false: with only `firstPage` non-empty
(`c10Pub`), no page suffix is appended (the code requires both page fields),
so the venue string is empty and does not begin with `", "`. -/
theorem c10_counterexample :
    c10Pub.book = none ∧ c10Pub.journal = none ∧ c10Pub.firstPage ≠ "" ∧
    extract_venue c10Pub = "" ∧
    isPref ", ".data (extract_venue c10Pub).data = false := by decide

/-! ### Claim C2 -/

/-- Claim C2, as stated, is false: `re.subn` is called without a count
limit, so a document with two marker pairs undergoes two replacements in a
single invocation. -/
theorem c2_counterexample :
    update_count "FRAG" c2Doc = 2 ∧ ¬ update_count "FRAG" c2Doc ≤ 1 := by decide

/-- Claim C2 (amended): a single invocation performs one replacement per
marker-delimited span — `k` replacements on a document with `k` pairs, and
in particular exactly one on a document with exactly one pair.  The
document is any `pairsDoc ps tail`, hypotheses only that each pre-span text
contains no start marker, each span contains no end marker, and the
trailing text contains no marker pair; every other character (including
`<`) is unconstrained, as in a real HTML target. -/
theorem c2_one_replacement_per_pair (frag : String)
    (ps : List (List Char × List Char)) (tail : List Char)
    (ha : ∀ p ∈ ps, containsL p.1 MARKER_START.data = false)
    (hm : ∀ p ∈ ps, containsL p.2 MARKER_END.data = false)
    (htail : hasMarkerPairL tail = false) :
    update_run frag ⟨pairsDoc ps tail⟩
        = (pairsResult (replacementOf frag).data ps tail, ps.length) ∧
    update_index frag ⟨pairsDoc ps tail⟩
        = (if ps.length = 0 then none
           else some ⟨pairsResult (replacementOf frag).data ps tail⟩) := by
  have key : update_run frag ⟨pairsDoc ps tail⟩
      = (pairsResult (replacementOf frag).data ps tail, ps.length) := by
    unfold update_run
    simp only [strData_mk]
    exact subnFuel_pairs _ tail htail ps _ ha hm
      (le_trans (length_le_pairsDoc ps tail) (by omega))
  refine ⟨key, ?_⟩
  unfold update_index update_count
  rw [key]

/-- Witness for the amended theorem of C2 on a concrete two-pair document
whose non-marker text is full of angle brackets. -/
theorem c2_one_replacement_per_pair_witness :
    update_run "F" ⟨pairsDoc c2Pairs c2Tail⟩
        = (pairsResult (replacementOf "F").data c2Pairs c2Tail, c2Pairs.length) ∧
    update_index "F" ⟨pairsDoc c2Pairs c2Tail⟩
        = (if c2Pairs.length = 0 then none
           else some ⟨pairsResult (replacementOf "F").data c2Pairs c2Tail⟩) :=
  c2_one_replacement_per_pair "F" c2Pairs c2Tail (by decide) (by decide) (by decide)

/-! ### Claim C3 -/

/-- Claim C3: on a document with no marker pair the patch reports failure
(`none`: the `count == 0` branch, where no write is performed and the
document keeps its bytes) and the process exits with status 1. -/
theorem c3_missing_markers (pubs : List Pub) (doc : String)
    (hp : pubs ≠ []) (hm : hasMarkerPair doc = false) :
    update_index (build_html pubs) doc = none ∧ mainRun pubs doc = (doc, 1) := by
  have hcount : update_run (build_html pubs) doc = (doc.data, 0) := by
    unfold update_run
    unfold hasMarkerPair at hm
    cases h1 : splitAtSubstr MARKER_START.data doc.data with
    | none => exact subnFuel_of_no_start _ _ _ h1
    | some pr =>
      obtain ⟨bf, rest⟩ := pr
      rw [h1] at hm
      simp only at hm
      cases h2 : splitAtSubstr MARKER_END.data rest with
      | none => simp only [subnFuel, h1, h2]
      | some _ => rw [h2] at hm; simp at hm
  have hidx : update_index (build_html pubs) doc = none := by
    unfold update_index update_count
    rw [hcount]
    simp
  refine ⟨hidx, ?_⟩
  have hne : pubs.isEmpty = false := by
    cases pubs with
    | nil => exact absurd rfl hp
    | cons x xs => rfl
  unfold mainRun
  rw [hne, hidx]
  simp

/-- Witness for C3 on a concrete marker-free document. -/
theorem c3_missing_markers_witness :
    update_index (build_html [emptyPub]) "hello" = none ∧
    mainRun [emptyPub] "hello" = ("hello", 1) :=
  c3_missing_markers [emptyPub] "hello" (by decide) (by decide)

/-! ### Claim C4 (amended) -/

/-- Claim C4 (amended): journal-title cleanup runs exactly when a journal
entry is present — on the journal title, its label, or, failing both, the
book-seeded venue; only when no journal entry exists is the book title
embedded without cleanup. -/
theorem c4_cleanup_scope (pub : Pub) (b : Book)
    (hb : pub.book = some b) (hv : pub.volume = "") (hi : pub.issue = "")
    (hf : pub.firstPage = "") :
    (pub.journal = none → extract_venue pub = b.title) ∧
    (pub.journal = some ⟨none, none⟩ → extract_venue pub = clean_journal_title b.title) := by
  constructor <;> intro hj <;> simp [extract_venue, hb, hj, hv, hi, hf]

/-- Witness for the amended theorem of C4 at `w4Pub`. -/
theorem c4_cleanup_scope_witness : extract_venue w4Pub = clean_journal_title "SOME BOOK" :=
  (c4_cleanup_scope w4Pub ⟨"SOME BOOK", []⟩ rfl rfl rfl rfl).2 rfl

/-! ### Claim C5 (amended) -/

/-- Claim C5 (amended): the counted authorships are listed in non-decreasing
order of the sort key (list position, defaulting to the sentinel 999), and —
provided every present list position is below 999 — no unpositioned
authorship precedes a positioned one. -/
theorem c5_order (pub : Pub) :
    (authorshipsSorted pub).Pairwise (fun a b => posKey a ≤ posKey b) ∧
    ((∀ a ∈ pub.authorships, ∀ p, a.listPosition = some p → p < 999) →
      (authorshipsSorted pub).Pairwise
        (fun a b => a.listPosition = none → b.listPosition = none)) := by
  have hsorted : (authorshipsSorted pub).Pairwise (fun a b => posKey a ≤ posKey b) :=
    List.sorted_insertionSort _ _
  refine ⟨hsorted, fun hyp => ?_⟩
  refine List.Pairwise.imp_of_mem ?_ hsorted
  intro a b ha hb hle hanone
  have hb' : b ∈ pub.authorships :=
    List.mem_of_mem_filter ((List.perm_insertionSort _ _).mem_iff.mp hb)
  cases hpos : b.listPosition with
  | none => rfl
  | some p =>
    have hlt : p < 999 := hyp b hb' p hpos
    have h999 : posKey a = 999 := by simp [posKey, hanone]
    have hpb : posKey b = p := by simp [posKey, hpos]
    rw [h999, hpb] at hle
    omega

/-- Witness for the amended theorem of C5 at `w5Pub`. -/
theorem c5_order_witness :
    (authorshipsSorted w5Pub).Pairwise
      (fun a b => a.listPosition = none → b.listPosition = none) :=
  (c5_order w5Pub).2 (by decide)

/-! ### Claim C7 (amended) -/

/-- Claim C7 (amended): publisher inference is the stated ordered
first-match rule list with the DOI conditions read as substring checks on
the DOI URL (the code tests `"10.1109" in doi`, not a prefix). -/
theorem c7_publisher_rules (pub : Pub) :
    get_publisher pub = publisherSpecContains pub := by
  unfold get_publisher publisherSpecContains specBookRule
  by_cases hb : bookPiscataway pub = true
  · rw [if_pos hb, if_pos hb]
  · rw [if_neg hb, if_neg hb]

/-! ### Claim C9 -/

/-- Claim C9: when a record with a non-zero year has no title field the
renderer shows the placeholder `"Unknown Title"` in the title position,
DOI-linked exactly when a DOI URL exists. -/
theorem c9_unknown_title (pub : Pub) (hy : pub.publishedYear ≠ 0) (ht : pub.title = none) :
    titleHtmlOf pub =
      (if extract_doi pub = "" then "Unknown Title"
       else "<a href=\"" ++ extract_doi pub ++ "\" target=\"_blank\" rel=\"noopener\">"
         ++ "Unknown Title" ++ "</a>") ∧
    (indentI ++ "            " ++ titleHtmlOf pub) ∈ buildHtmlLines [pub] := by
  have hesc : html_escape "Unknown Title" = "Unknown Title" := by decide
  constructor
  · unfold titleHtmlOf titleTextOf
    rw [ht]
    simp only [Option.getD_none, hesc]
    by_cases hd : extract_doi pub = ""
    · simp [hd]
    · simp [hd]
  · have hys : yearsOf [pub] = [pub.publishedYear] := by
      unfold yearsOf
      simp [hy, List.insertionSort, List.orderedInsert]
    have hgrp : pubsOfYear [pub] pub.publishedYear = [pub] := by
      unfold pubsOfYear
      simp
    unfold buildHtmlLines
    rw [hys]
    simp only [List.map_cons, List.map_nil, List.flatten_cons, List.flatten_nil,
      List.append_nil]
    unfold yearBlock
    rw [hgrp]
    simp [renderPub]

/-- Witness for C9 at the titleless record `c9Pub`. -/
theorem c9_unknown_title_witness :
    titleHtmlOf c9Pub =
      (if extract_doi c9Pub = "" then "Unknown Title"
       else "<a href=\"" ++ extract_doi c9Pub ++ "\" target=\"_blank\" rel=\"noopener\">"
         ++ "Unknown Title" ++ "</a>") ∧
    (indentI ++ "            " ++ titleHtmlOf c9Pub) ∈ buildHtmlLines [c9Pub] :=
  c9_unknown_title c9Pub (by decide) rfl

/-! ### Claim C10 (amended) -/

/-- Claim C10 (amended): for a record with neither book nor journal entry,
the venue string begins with `", "` whenever the volume is non-empty, the
issue is non-empty, or both page fields are non-empty (a single non-empty
page field appends nothing — see the counterexample). -/
theorem c10_leading_comma (pub : Pub) (hb : pub.book = none) (hj : pub.journal = none)
    (h : pub.volume ≠ "" ∨ pub.issue ≠ "" ∨ (pub.firstPage ≠ "" ∧ pub.lastPage ≠ "")) :
    isPref ", ".data (extract_venue pub).data = true := by
  unfold extract_venue
  simp only [hb, hj]
  split_ifs <;> tauto

/-- Witness for the amended theorem of C10 at `w10Pub`. -/
theorem c10_leading_comma_witness :
    isPref ", ".data (extract_venue w10Pub).data = true :=
  c10_leading_comma w10Pub rfl rfl (Or.inl (by decide))
